import Mathlib

/-!
Verification of the `TranscribeAudioOutput` repository.

Shallow embedding of `src/Apps/transcribe.py` and `src/Apps/record.py`.
File names are modelled as lists of characters; numeric file sizes are
naturals; fractional quantities (durations, divided sizes) are rationals,
which coincide with the Python float values on the inputs where the
float arithmetic of the source is exact (divisions by powers of two,
integers below 2^53).
-/

/-- The 26 uppercase/lowercase ASCII letter pairs.  Models the effect of
Python `str.lower` on the characters relevant to extension comparison
(ASCII; `str.lower` is the identity on the other characters appearing in
the supported-format extensions). -/
def lowerPairs : List (Char × Char) :=
  [('A', 'a'), ('B', 'b'), ('C', 'c'), ('D', 'd'), ('E', 'e'), ('F', 'f'),
   ('G', 'g'), ('H', 'h'), ('I', 'i'), ('J', 'j'), ('K', 'k'), ('L', 'l'),
   ('M', 'm'), ('N', 'n'), ('O', 'o'), ('P', 'p'), ('Q', 'q'), ('R', 'r'),
   ('S', 's'), ('T', 't'), ('U', 'u'), ('V', 'v'), ('W', 'w'), ('X', 'x'),
   ('Y', 'y'), ('Z', 'z')]

/-- Look a character up in a replacement table, defaulting to the character
itself. -/
def lowerVia : List (Char × Char) → Char → Char
  | [], c => c
  | (u, l) :: rest, c => if c = u then l else lowerVia rest c

/-- ASCII lowercasing of one character, as performed by Python `str.lower`
on ASCII input. -/
def asciiLower (c : Char) : Char := lowerVia lowerPairs c

/-- `PurePath.suffix` from CPython `pathlib` (3.11): the substring of the
file NAME from its last dot on, empty when there is no dot, when the only
dot is the leading character (hidden file), or when the dot is the final
character. -/
def pySuffix (name : List Char) : List Char :=
  if (name.reverse.takeWhile fun c => decide (c ≠ '.')).length = name.reverse.length then []
  else if (name.reverse.takeWhile fun c => decide (c ≠ '.')).length = 0 then []
  else if (name.reverse.takeWhile fun c => decide (c ≠ '.')).length = name.reverse.length - 1 then []
  else '.' :: (name.reverse.takeWhile fun c => decide (c ≠ '.')).reverse

/-- The file name with its `pySuffix` removed (CPython `PurePath.stem`
extended to the whole name, as used by `with_suffix`). -/
def pyStem (name : List Char) : List Char :=
  name.take (name.length - (pySuffix name).length)

/-- `PurePath.with_suffix` from CPython `pathlib`: drop the current suffix
(if any) and append the new one. -/
def pyWithSuffix (name suf : List Char) : List Char :=
  pyStem name ++ suf

theorem asciiLower_dot : asciiLower '.' = '.' := by decide

theorem lowerVia_ne_dot :
    ∀ ps : List (Char × Char), (∀ p ∈ ps, p.2 ≠ '.') →
      ∀ c : Char, c ≠ '.' → lowerVia ps c ≠ '.'
  | [], _, c, hc => hc
  | (u, l) :: rest, h, c, hc => by
    by_cases hcu : c = u
    · simpa [lowerVia, hcu] using h (u, l) (List.mem_cons_self _ _)
    · simpa [lowerVia, hcu] using
        lowerVia_ne_dot rest (fun p hp => h p (List.mem_cons_of_mem _ hp)) c hc

theorem asciiLower_eq_dot_iff (c : Char) : asciiLower c = '.' ↔ c = '.' := by
  constructor
  · intro h
    by_contra hc
    exact lowerVia_ne_dot lowerPairs (by decide) c hc h
  · intro h
    subst h
    exact asciiLower_dot

theorem notDot_comp_asciiLower :
    ((fun c => decide (c ≠ '.')) ∘ asciiLower) = fun c : Char => decide (c ≠ '.') := by
  funext c
  simp only [Function.comp_apply]
  exact decide_eq_decide.mpr (not_congr (asciiLower_eq_dot_iff c))

/-- Taking the Python suffix commutes with ASCII lowercasing: lowercasing
never creates or destroys a dot, so the dot structure of the name is
unchanged. -/
theorem pySuffix_map_asciiLower (name : List Char) :
    pySuffix (name.map asciiLower) = (pySuffix name).map asciiLower := by
  unfold pySuffix
  rw [← List.map_reverse, List.takeWhile_map, notDot_comp_asciiLower]
  simp only [List.length_map]
  split
  · rfl
  · split
    · rfl
    · split
      · rfl
      · rw [List.map_cons, asciiLower_dot, List.map_reverse]

/-- `SUPPORTED_FORMATS` from `src/Apps/transcribe.py` line 41 (a Python set;
modelled as a list, membership being all that the program uses). -/
def SUPPORTED_FORMATS : List (List Char) :=
  [".mp3".toList, ".mp4".toList, ".mpeg".toList, ".mpga".toList,
   ".m4a".toList, ".wav".toList, ".webm".toList]

/-- `MAX_FILE_SIZE` from `src/Apps/transcribe.py` line 44. -/
def MAX_FILE_SIZE : Nat := 25 * 1024 * 1024

/-- The format validation of `src/Apps/transcribe.py` line 197:
`file_path.suffix.lower() in SUPPORTED_FORMATS`. -/
def checkFormatName (name : List Char) : Bool :=
  decide ((pySuffix name).map asciiLower ∈ SUPPORTED_FORMATS)

/-- Whether a directory entry is collected by the glob loop of
`find_latest_recording` (`src/Apps/transcribe.py` lines 96-98):
`directory.glob(f"*{ext}")` matches exactly the entries whose name ends
with `ext` (pathlib compiles the pattern through `fnmatch.translate`,
which hides no dot files). -/
def globsSupported (name : List Char) : Bool :=
  SUPPORTED_FORMATS.any fun ext => ext.isSuffixOf name

/-- A directory entry as seen by the transcriber: a file name and its
modification time (`st_mtime`, modelled as a numeric timestamp). -/
structure DirEntry where
  name : List Char
  mtime : Nat
deriving DecidableEq, Repr

/-- The comparison used by `audio_files.sort(key=..., reverse=True)`
(`src/Apps/transcribe.py` line 104): newest first. -/
def mtimeDesc (a b : DirEntry) : Prop := b.mtime ≤ a.mtime

instance mtimeDesc.decRel : DecidableRel mtimeDesc :=
  fun a b => Nat.decLe b.mtime a.mtime

instance mtimeDesc.total : IsTotal DirEntry mtimeDesc :=
  ⟨fun a b => Nat.le_total b.mtime a.mtime⟩

instance mtimeDesc.trans : IsTrans DirEntry mtimeDesc :=
  ⟨fun _ _ _ hab hbc => le_trans hbc hab⟩

/-- `find_latest_recording` from `src/Apps/transcribe.py` lines 94-105:
collect the entries matching one of the supported-extension globs, return
`none` when there are none, otherwise sort newest-first and take the head.
(The pre-sort order of the collected entries is nondeterministic in the
source — set iteration plus directory order — so any stable sort of any
initial order is a faithful refinement; only the head is used.) -/
def find_latest_recording (entries : List DirEntry) : Option DirEntry :=
  if (entries.filter fun e => globsSupported e.name).isEmpty then none
  else ((entries.filter fun e => globsSupported e.name).insertionSort mtimeDesc).head?

/-- The no-argument file resolution of `main` (`src/Apps/transcribe.py`
lines 185-188): a `find_latest_recording` miss is a fatal exit with
code 1. -/
def resolveDefault (entries : List DirEntry) : Except Nat DirEntry :=
  match find_latest_recording entries with
  | none => .error 1
  | some f => .ok f

/-- A resolved input path: directory part and file name
(`pathlib.Path` split as the program uses it: `suffix`/`with_suffix`
act on the name, the parent is carried along). -/
structure PyPath where
  parent : List Char
  name : List Char
deriving DecidableEq, Repr

/-- Which file was handed to `transcribe_file`: the original input or the
transcoded temporary MP3. -/
inductive SubmittedFile where
  | original
  | temp
deriving DecidableEq, Repr

/-- A transcript write (`src/Apps/transcribe.py` lines 260-261):
destination directory, file name, encoding, content. -/
structure TxtWrite where
  parent : List Char
  name : List Char
  encoding : String
  text : String
deriving DecidableEq, Repr

/-- Observable outcome of one run of `main` on a resolved file. -/
structure RunResult where
  exitCode : Nat
  clientConstructed : Bool
  apiCalled : Bool
  submitted : Option SubmittedFile
  tempCreated : Bool
  tempDeleted : Bool
  txtWritten : Option TxtWrite
deriving DecidableEq, Repr

/-- The environment a run interacts with: the credential, facts about the
resolved input file, the outcome of a possible `ffmpeg` conversion
(`none` = failure or missing tool, `some n` = converted file of `n`
bytes), and the outcome of the API call (`.error` = exception raised by
`transcribe_file`, `.ok` = returned text).  The optional language hint
only parametrises the API request and is absorbed into `apiResult`. -/
structure TranscribeEnv where
  apiKey : Option String
  fileExists : Bool
  fileSize : Nat
  ffmpegResult : Option Nat
  apiResult : Except String String

/-- Python truthiness of the credential (`if not api_key`,
`src/Apps/transcribe.py` line 171): missing or empty. -/
def falsyKey : Option String → Bool
  | none => true
  | some s => s.isEmpty

/-- Straight-line embedding of `main` from `src/Apps/transcribe.py`
(lines 169-268) applied to an already-resolved input file `p`:
credential check, existence check, format check, empty check, optional
transcode with its two failure exits, API call, transcript write.  Field
order of the results: exit code, client constructed, API called,
submitted file, temp created, temp deleted, transcript written. -/
def runTranscribe (env : TranscribeEnv) (p : PyPath) : RunResult :=
  if falsyKey env.apiKey then
    ⟨1, false, false, none, false, false, none⟩
  else if ¬ env.fileExists then
    ⟨1, false, false, none, false, false, none⟩
  else if ¬ checkFormatName p.name then
    ⟨1, false, false, none, false, false, none⟩
  else if env.fileSize = 0 then
    ⟨1, false, false, none, false, false, none⟩
  else if MAX_FILE_SIZE < env.fileSize then
    match env.ffmpegResult with
    | none => ⟨1, true, false, none, true, true, none⟩
    | some convertedSize =>
      if MAX_FILE_SIZE < convertedSize then
        ⟨1, true, false, none, true, true, none⟩
      else
        match env.apiResult with
        | .error _ => ⟨1, true, true, some .temp, true, true, none⟩
        | .ok text =>
            ⟨0, true, true, some .temp, true, true,
              some ⟨p.parent, pyWithSuffix p.name ".txt".toList, "utf-8", text⟩⟩
  else
    match env.apiResult with
    | .error _ => ⟨1, true, true, some .original, false, false, none⟩
    | .ok text =>
        ⟨0, true, true, some .original, false, false,
          some ⟨p.parent, pyWithSuffix p.name ".txt".toList, "utf-8", text⟩⟩

/-- The ascending comparison for batch order (oldest first). -/
def mtimeAsc (a b : DirEntry) : Prop := a.mtime ≤ b.mtime

instance mtimeAsc.decRel : DecidableRel mtimeAsc :=
  fun a b => Nat.decLe a.mtime b.mtime

instance mtimeAsc.total : IsTotal DirEntry mtimeAsc :=
  ⟨fun a b => Nat.le_total a.mtime b.mtime⟩

instance mtimeAsc.trans : IsTrans DirEntry mtimeAsc :=
  ⟨fun _ _ _ hab hbc => le_trans hab hbc⟩

/-- Modelled from the spec: the batch-mode transcriber variant is not
present under `src/` (spec sections 4.3 and 8).  A directory entry is a
batch candidate when it is a WAV file and no sibling `.txt` file (same
stem, `.txt` extension) exists in the directory. -/
def wavMissingTxt (entries : List DirEntry) (e : DirEntry) : Bool :=
  decide (pySuffix e.name = ".wav".toList) &&
    !(entries.any fun f => decide (f.name = pyWithSuffix e.name ".txt".toList))

/-- Modelled from the spec: batch mode scans the directory for WAV files
lacking a sibling `.txt` and orders them oldest first. -/
def batchCandidates (entries : List DirEntry) : List DirEntry :=
  (entries.filter (wavMissingTxt entries)).insertionSort mtimeAsc

/-- Modelled from the spec: the batch loop processes each file
independently; a per-file failure (`.error`) is recorded and the loop
continues with the remaining files. -/
def batchRun (process : DirEntry → Except String String) :
    List DirEntry → List (DirEntry × Except String String)
  | [] => []
  | e :: rest => (e, process e) :: batchRun process rest

/-- Modelled from the spec: one batch-mode invocation over a directory. -/
def batchTranscribe (entries : List DirEntry)
    (process : DirEntry → Except String String) :
    List (DirEntry × Except String String) :=
  batchRun process (batchCandidates entries)

/-- `format_duration` from `src/Apps/record.py` lines 50-56, on the
nonnegative durations the program feeds it (for those, Python `int`
truncation coincides with the floor used here). -/
def format_duration (s : ℚ) : String :=
  if 0 < (⌊s / 60⌋).toNat then
    toString (⌊s / 60⌋).toNat ++ " Minute" ++
      (if (⌊s / 60⌋).toNat ≠ 1 then "n" else "") ++ " " ++
      toString (⌊s - 60 * ⌊s / 60⌋⌋).toNat ++ " Sekunde" ++
      (if (⌊s - 60 * ⌊s / 60⌋⌋).toNat ≠ 1 then "n" else "")
  else
    toString (⌊s - 60 * ⌊s / 60⌋⌋).toNat ++ " Sekunde" ++
      (if (⌊s - 60 * ⌊s / 60⌋⌋).toNat ≠ 1 then "n" else "")

/-- Reading of the spec sentence: a seconds count with the German singular
used exactly at 1. -/
def secondsPhrase (n : Nat) : String :=
  toString n ++ (if n = 1 then " Sekunde" else " Sekunden")

/-- Reading of the spec sentence: a minutes count with the German singular
used exactly at 1. -/
def minutesPhrase (n : Nat) : String :=
  toString n ++ (if n = 1 then " Minute" else " Minuten")

/-- Round to the nearest integer, ties to even — the rounding CPython's
`%.1f` formatting applies to the (here exactly representable) scaled
value. -/
def roundHalfEven (q : ℚ) : ℤ :=
  if Int.fract q < 1 / 2 then ⌊q⌋
  else if 1 / 2 < Int.fract q then ⌊q⌋ + 1
  else if ⌊q⌋ % 2 = 0 then ⌊q⌋ else ⌊q⌋ + 1

/-- CPython `f"{x:.1f}"` for a nonnegative value `x = q` that the float
holds exactly (true for every value `format_size` produces from an input
below 2^53: the divisions are by powers of two). -/
def fixed1 (q : ℚ) : String :=
  toString (roundHalfEven (10 * q) / 10) ++ "." ++ toString (roundHalfEven (10 * q) % 10)

/-- The unit loop of `format_size` (`src/Apps/record.py` lines 59-65 and
the identical copy in `src/Apps/transcribe.py` lines 50-56): emit at the
first unit where the value is below 1024, else divide by 1024 and move to
the next unit, falling back to TB. -/
def formatSizeLoop : List String → ℚ → String
  | [], q => fixed1 q ++ " TB"
  | u :: us, q => if q < 1024 then fixed1 q ++ " " ++ u else formatSizeLoop us (q / 1024)

/-- `format_size` from `src/Apps/record.py` lines 59-65 (identical
function in `src/Apps/transcribe.py` lines 50-56). -/
def format_size (n : Nat) : String :=
  formatSizeLoop ["B", "KB", "MB", "GB"] (n : ℚ)

/-- The five units `format_size` can emit, in the order they are reached. -/
def allUnits : List String := ["B", "KB", "MB", "GB", "TB"]

/-- The timestamped output file name of the recorder
(`src/Apps/record.py` line 288). -/
def recordingFilename (timestamp : String) : String :=
  "recording_" ++ timestamp ++ ".wav"

/-- `record_cmd` from `src/Apps/record.py` lines 303-308: the full
argument list of the external recording command that is then started. -/
def record_cmd (source filepath : String) : List String :=
  ["parecord", "-d", source, "--file-format=wav", filepath]

/-- Whether `pat` occurs as a contiguous run inside `l`. -/
def occursIn (pat : List Char) : List Char → Bool
  | [] => pat.isEmpty
  | c :: rest => pat.isPrefixOf (c :: rest) || occursIn pat rest

/-- A passing format check forces a nonempty extension: the empty suffix is
not among the supported formats. -/
theorem checkFormat_suffix_ne_nil {name : List Char}
    (h : checkFormatName name = true) : pySuffix name ≠ [] := by
  intro hnil
  rw [checkFormatName, hnil] at h
  exact absurd h (by decide)

/-- A resolved input path used for concrete evaluations. -/
def pWav : PyPath := ⟨"/rec".toList, "a.wav".toList⟩

/-- An environment whose input file is exactly at the size ceiling. -/
def envAtCeiling : TranscribeEnv :=
  ⟨some "k", true, MAX_FILE_SIZE, some 1000, .ok "hello"⟩

/-- An environment whose input file is one byte above the size ceiling,
with a successful conversion and a successful API call. -/
def envBig : TranscribeEnv :=
  ⟨some "k", true, MAX_FILE_SIZE + 1, some 1000, .ok "hello"⟩

/-- An environment whose input file is empty. -/
def envEmpty : TranscribeEnv :=
  ⟨some "k", true, 0, none, .error "unreached"⟩

/-- C1 counterexample: a file of exactly 25 MB is at the ceiling, yet the
run creates no temporary file and submits the original — the source
transcodes only on `file_size > MAX_FILE_SIZE`
(`src/Apps/transcribe.py` line 224). -/
theorem transcode_threshold_counterexample :
    MAX_FILE_SIZE ≤ envAtCeiling.fileSize ∧
    (runTranscribe envAtCeiling pWav).tempCreated = false ∧
    (runTranscribe envAtCeiling pWav).submitted = some SubmittedFile.original ∧
    (runTranscribe envAtCeiling pWav).apiCalled = true :=
  ⟨le_refl _, rfl, rfl, rfl⟩

/-- C1 (amended): for a run that passes the credential, existence, format
and non-emptiness checks, a file at or below the ceiling is submitted as
is with no transcoding, while a file strictly above the ceiling leads to a
transcoded temporary file, which is the one submitted whenever a
submission happens and which is deleted regardless of the outcome. -/
theorem transcode_threshold_spec (env : TranscribeEnv) (p : PyPath)
    (hkey : falsyKey env.apiKey = false) (hex : env.fileExists = true)
    (hfmt : checkFormatName p.name = true) (hnz : env.fileSize ≠ 0) :
    (env.fileSize ≤ MAX_FILE_SIZE →
      (runTranscribe env p).tempCreated = false ∧
      (runTranscribe env p).submitted = some SubmittedFile.original ∧
      (runTranscribe env p).apiCalled = true) ∧
    (MAX_FILE_SIZE < env.fileSize →
      (runTranscribe env p).tempCreated = true ∧
      (runTranscribe env p).tempDeleted = true ∧
      ∀ sf, (runTranscribe env p).submitted = some sf → sf = SubmittedFile.temp) := by
  constructor
  · intro hle
    have hnlt : ¬ MAX_FILE_SIZE < env.fileSize := not_lt.mpr hle
    rcases hapi : env.apiResult with e | t <;>
      simp [runTranscribe, hkey, hex, hfmt, hnz, hnlt, hapi]
  · intro hlt
    rcases hff : env.ffmpegResult with _ | csz
    · simp [runTranscribe, hkey, hex, hfmt, hnz, hlt, hff]
    · by_cases hcs : MAX_FILE_SIZE < csz
      · simp [runTranscribe, hkey, hex, hfmt, hnz, hlt, hff, hcs]
      · rcases hapi : env.apiResult with e | t <;>
          simp [runTranscribe, hkey, hex, hfmt, hnz, hlt, hff, hcs, hapi]

/-- C1 witness: the amended theorem applied to the concrete
one-byte-oversized run. -/
theorem transcode_threshold_spec_witness :
    (runTranscribe envBig pWav).tempCreated = true ∧
    (runTranscribe envBig pWav).tempDeleted = true := by
  have h := (transcode_threshold_spec envBig pWav (by rfl) (by rfl) (by decide)
    (by decide)).2 (by decide)
  exact ⟨h.1, h.2.1⟩

/-- C2: every run that created a transcoded temporary file also deleted it
before exiting, on all four exit paths (conversion failure, converted file
still oversized, API exception, success). -/
theorem temp_cleanup_all_paths (env : TranscribeEnv) (p : PyPath)
    (h : (runTranscribe env p).tempCreated = true) :
    (runTranscribe env p).tempDeleted = true := by
  unfold runTranscribe at h ⊢
  rcases hf : env.ffmpegResult with _ | csz <;> rcases ha : env.apiResult with e | t <;>
    simp only [hf, ha] at h ⊢ <;> split_ifs at h ⊢ <;> simp_all

/-- C2 witness: the cleanup theorem applied to a concrete oversized run. -/
theorem temp_cleanup_all_paths_witness :
    (runTranscribe envBig pWav).tempDeleted = true :=
  temp_cleanup_all_paths envBig pWav (by rfl)

/-- C5: a 0-byte input file makes the run exit nonzero before the API
client is constructed, with no API call and no transcript written. -/
theorem empty_file_rejected (env : TranscribeEnv) (p : PyPath)
    (h : env.fileSize = 0) :
    (runTranscribe env p).exitCode ≠ 0 ∧
    (runTranscribe env p).clientConstructed = false ∧
    (runTranscribe env p).apiCalled = false ∧
    (runTranscribe env p).txtWritten = none := by
  unfold runTranscribe
  rcases hf : env.ffmpegResult with _ | csz <;> rcases ha : env.apiResult with e | t <;>
    simp only [hf, ha] <;> split_ifs <;> simp_all [MAX_FILE_SIZE]

/-- C5 witness: the rejection theorem applied to a concrete empty file. -/
theorem empty_file_rejected_witness :
    (runTranscribe envEmpty pWav).exitCode ≠ 0 ∧
    (runTranscribe envEmpty pWav).clientConstructed = false ∧
    (runTranscribe envEmpty pWav).apiCalled = false ∧
    (runTranscribe envEmpty pWav).txtWritten = none :=
  empty_file_rejected envEmpty pWav (by rfl)

/-- C6: every transcript write goes to the original input file's directory
and name with the extension genuinely replaced by `.txt` (the extension
was nonempty, having passed the format check), UTF-8 encoded — also in
runs that submitted the transcoded temporary file. -/
theorem txt_output_path_spec (env : TranscribeEnv) (p : PyPath) (w : TxtWrite)
    (h : (runTranscribe env p).txtWritten = some w) :
    w.parent = p.parent ∧
    w.name = pyStem p.name ++ ".txt".toList ∧
    pySuffix p.name ≠ [] ∧
    w.encoding = "utf-8" := by
  unfold runTranscribe at h
  rcases hf : env.ffmpegResult with _ | csz <;> rcases ha : env.apiResult with e | t <;>
    simp only [hf, ha] at h <;> split_ifs at h <;>
    first
    | exact Option.noConfusion h
    | (obtain rfl : w = _ := (Option.some.inj h).symm
       exact ⟨rfl, rfl, checkFormat_suffix_ne_nil (by simp_all), rfl⟩)

/-- C6 witness: the transcript-path theorem applied to the concrete
oversized run, whose submission used the temporary file while the
transcript still lands next to the original. -/
theorem txt_output_path_spec_witness :
    (⟨"/rec".toList, "a.txt".toList, "utf-8", "hello"⟩ : TxtWrite).parent = pWav.parent ∧
    (⟨"/rec".toList, "a.txt".toList, "utf-8", "hello"⟩ : TxtWrite).name =
      pyStem pWav.name ++ ".txt".toList ∧
    pySuffix pWav.name ≠ [] ∧
    (⟨"/rec".toList, "a.txt".toList, "utf-8", "hello"⟩ : TxtWrite).encoding = "utf-8" :=
  txt_output_path_spec envBig pWav ⟨"/rec".toList, "a.txt".toList, "utf-8", "hello"⟩ (by rfl)

/-- A hidden file named exactly `.wav`: matched by the glob `*.wav`, yet
its `pathlib` extension is empty. -/
def hiddenWav : DirEntry := ⟨".wav".toList, 10⟩

/-- A regular supported-extension file, older than `hiddenWav`. -/
def realMp3 : DirEntry := ⟨"b.mp3".toList, 5⟩

/-- C4 counterexample: in a directory holding the hidden file `.wav` and
the ordinary `b.mp3`, the resolver returns `.wav` — whose extension, even
lowercased, is not in the supported set — although a supported-extension
file exists, so the claim's selection (`b.mp3`) is not what the code
selects. -/
theorem latest_selection_counterexample :
    resolveDefault [hiddenWav, realMp3] = .ok hiddenWav ∧
    (pySuffix hiddenWav.name).map asciiLower ∉ SUPPORTED_FORMATS ∧
    pySuffix hiddenWav.name ∉ SUPPORTED_FORMATS ∧
    (pySuffix realMp3.name).map asciiLower ∈ SUPPORTED_FORMATS :=
  ⟨rfl, by decide, by decide, by decide⟩

/-- C4 (amended): with no explicit file argument the transcriber selects,
among all entries of the search directory whose NAME ENDS WITH one of the
supported extensions (the glob criterion, which also admits hidden files
such as `.wav` whose formal extension is empty), one with the greatest
modification time; when no entry matches it exits fatally with code 1. -/
theorem latest_selection_spec (entries : List DirEntry) :
    ((entries.filter fun e => globsSupported e.name) = [] →
      resolveDefault entries = .error 1) ∧
    (∀ f, resolveDefault entries = .ok f →
      globsSupported f.name = true ∧ f ∈ entries ∧
      ∀ g ∈ entries, globsSupported g.name = true → g.mtime ≤ f.mtime) := by
  constructor
  · intro hnil
    unfold resolveDefault find_latest_recording
    rw [hnil]
    simp
  · intro f hf
    unfold resolveDefault at hf
    rcases hfl : find_latest_recording entries with _ | g
    · rw [hfl] at hf
      exact Except.noConfusion hf
    · rw [hfl] at hf
      obtain rfl : g = f := by injection hf
      unfold find_latest_recording at hfl
      by_cases hempty : (entries.filter fun e => globsSupported e.name).isEmpty = true
      · rw [if_pos hempty] at hfl
        exact Option.noConfusion hfl
      · rw [if_neg hempty] at hfl
        have hsorted : List.Sorted mtimeDesc
            ((entries.filter fun e => globsSupported e.name).insertionSort mtimeDesc) :=
          List.sorted_insertionSort mtimeDesc _
        obtain ⟨tl, htl⟩ : ∃ tl,
            (entries.filter fun e => globsSupported e.name).insertionSort mtimeDesc
              = g :: tl := by
          cases hcase : (entries.filter fun e => globsSupported e.name).insertionSort mtimeDesc with
          | nil => rw [hcase] at hfl; exact Option.noConfusion hfl
          | cons a tl =>
            rw [hcase] at hfl
            obtain rfl : a = g := Option.some.inj hfl
            exact ⟨tl, rfl⟩
        have hmem : g ∈ entries.filter fun e => globsSupported e.name := by
          have hm : g ∈ (entries.filter fun e => globsSupported e.name).insertionSort mtimeDesc := by
            rw [htl]
            exact List.mem_cons_self _ _
          simpa [List.mem_insertionSort] using hm
        have hff := List.mem_filter.mp hmem
        refine ⟨hff.2, hff.1, ?_⟩
        intro e he hes
        have hgsort : e ∈ (entries.filter fun e => globsSupported e.name).insertionSort mtimeDesc := by
          simp only [List.mem_insertionSort]
          exact List.mem_filter.mpr ⟨he, hes⟩
        rw [htl] at hgsort hsorted
        rcases List.mem_cons.mp hgsort with rfl | hgtl
        · exact le_refl _
        · exact List.rel_of_sorted_cons hsorted e hgtl

/-- C4 witness: the amended theorem applied to a concrete directory where
`b.mp3` is the newest matching entry. -/
theorem latest_selection_spec_witness :
    globsSupported (⟨"b.mp3".toList, 2⟩ : DirEntry).name = true ∧
    (⟨"b.mp3".toList, 2⟩ : DirEntry) ∈
      [(⟨"a.wav".toList, 1⟩ : DirEntry), ⟨"b.mp3".toList, 2⟩] ∧
    ∀ g ∈ [(⟨"a.wav".toList, 1⟩ : DirEntry), ⟨"b.mp3".toList, 2⟩],
      globsSupported g.name = true → g.mtime ≤ (⟨"b.mp3".toList, 2⟩ : DirEntry).mtime :=
  (latest_selection_spec [⟨"a.wav".toList, 1⟩, ⟨"b.mp3".toList, 2⟩]).2
    ⟨"b.mp3".toList, 2⟩ (by rfl)

/-- The batch loop touches every selected file, whatever the per-file
outcomes are. -/
theorem batchRun_map_fst (process : DirEntry → Except String String) :
    ∀ l : List DirEntry, (batchRun process l).map Prod.fst = l
  | [] => rfl
  | e :: rest => by
    simp only [batchRun, List.map_cons]
    rw [batchRun_map_fst process rest]

/-- C3: in batch mode a file is processed iff it is a WAV file with no
sibling `.txt` in the directory; the processed files are in ascending
modification-time order (oldest first); and the list of processed files
does not depend on the per-file outcomes — a failure never cuts the batch
short. -/
theorem batch_selection_spec (entries : List DirEntry)
    (process : DirEntry → Except String String) :
    (∀ e, e ∈ (batchTranscribe entries process).map Prod.fst ↔
      (e ∈ entries ∧ pySuffix e.name = ".wav".toList ∧
        ¬ ∃ f ∈ entries, f.name = pyWithSuffix e.name ".txt".toList)) ∧
    List.Sorted mtimeAsc ((batchTranscribe entries process).map Prod.fst) ∧
    (batchTranscribe entries process).map Prod.fst = batchCandidates entries := by
  have h3 : (batchTranscribe entries process).map Prod.fst = batchCandidates entries :=
    batchRun_map_fst process (batchCandidates entries)
  refine ⟨?_, ?_, h3⟩
  · intro e
    rw [h3]
    unfold batchCandidates wavMissingTxt
    simp [List.mem_insertionSort, List.mem_filter, List.any_eq_true, and_assoc]
  · rw [h3]
    exact List.sorted_insertionSort mtimeAsc _

/-- C3 witness: the batch theorem applied to a concrete directory in which
`a.wav` is already transcribed (sibling `a.txt`) and `b.wav` is not. -/
theorem batch_selection_spec_witness :
    (⟨"b.wav".toList, 3⟩ : DirEntry) ∈
      (batchTranscribe [⟨"a.wav".toList, 5⟩, ⟨"a.txt".toList, 1⟩, ⟨"b.wav".toList, 3⟩]
        (fun _ => .error "api down")).map Prod.fst ↔
    ((⟨"b.wav".toList, 3⟩ : DirEntry) ∈
        [(⟨"a.wav".toList, 5⟩ : DirEntry), ⟨"a.txt".toList, 1⟩, ⟨"b.wav".toList, 3⟩] ∧
      pySuffix ("b.wav".toList) = ".wav".toList ∧
      ¬ ∃ f ∈ [(⟨"a.wav".toList, 5⟩ : DirEntry), ⟨"a.txt".toList, 1⟩, ⟨"b.wav".toList, 3⟩],
        f.name = pyWithSuffix ("b.wav".toList) ".txt".toList) :=
  (batch_selection_spec [⟨"a.wav".toList, 5⟩, ⟨"a.txt".toList, 1⟩, ⟨"b.wav".toList, 3⟩]
    (fun _ => .error "api down")).1 ⟨"b.wav".toList, 3⟩

/-- C7 counterexample: the recording command actually built contains the
tool name, the source selector, the WAV container flag and the output
path — and no argument carrying a sample rate (44100), a 16-bit sample
format (s16) or a channel count: the encoding parameters the claim
names are absent from the command. -/
theorem record_cmd_counterexample :
    record_cmd "mic" (recordingFilename "20260101_120000") =
      ["parecord", "-d", "mic", "--file-format=wav", "recording_20260101_120000.wav"] ∧
    (∀ a ∈ record_cmd "mic" (recordingFilename "20260101_120000"),
      occursIn "44100".toList a.toList = false) ∧
    (∀ a ∈ record_cmd "mic" (recordingFilename "20260101_120000"),
      occursIn "s16".toList a.toList = false) ∧
    (∀ a ∈ record_cmd "mic" (recordingFilename "20260101_120000"),
      occursIn "channels".toList a.toList = false) := by
  refine ⟨rfl, ?_, ?_, ?_⟩ <;> decide

/-- C7 (amended): for every session the recorder builds and starts the
external recording command consisting exactly of the tool name, the
chosen source behind `-d`, the WAV file-format flag, and the timestamped
output path as final argument; no explicit sample-format, sample-rate or
channel-count parameters are passed (those are left to the tool's
defaults), so whenever the source and path mention no such parameter,
neither does any argument of the command. -/
theorem record_cmd_spec (source dir timestamp : String)
    (hs44 : occursIn "44100".toList source.toList = false)
    (hs16 : occursIn "s16".toList source.toList = false)
    (hsch : occursIn "channels".toList source.toList = false)
    (hp44 : occursIn "44100".toList (dir ++ "/" ++ recordingFilename timestamp).toList = false)
    (hp16 : occursIn "s16".toList (dir ++ "/" ++ recordingFilename timestamp).toList = false)
    (hpch : occursIn "channels".toList (dir ++ "/" ++ recordingFilename timestamp).toList = false) :
    record_cmd source (dir ++ "/" ++ recordingFilename timestamp) =
      ["parecord", "-d", source, "--file-format=wav",
        dir ++ "/" ++ ("recording_" ++ timestamp ++ ".wav")] ∧
    source ∈ record_cmd source (dir ++ "/" ++ recordingFilename timestamp) ∧
    (record_cmd source (dir ++ "/" ++ recordingFilename timestamp)).getLast? =
      some (dir ++ "/" ++ recordingFilename timestamp) ∧
    ∀ a ∈ record_cmd source (dir ++ "/" ++ recordingFilename timestamp),
      occursIn "44100".toList a.toList = false ∧
      occursIn "s16".toList a.toList = false ∧
      occursIn "channels".toList a.toList = false := by
  refine ⟨rfl, ?_, rfl, ?_⟩
  · simp [record_cmd]
  · intro a ha
    simp only [record_cmd, List.mem_cons, List.not_mem_nil, or_false] at ha
    rcases ha with rfl | rfl | rfl | rfl | rfl
    · exact ⟨by decide, by decide, by decide⟩
    · exact ⟨by decide, by decide, by decide⟩
    · exact ⟨hs44, hs16, hsch⟩
    · exact ⟨by decide, by decide, by decide⟩
    · exact ⟨hp44, hp16, hpch⟩

/-- C7 witness: the amended theorem applied to a concrete source and
timestamp. -/
theorem record_cmd_spec_witness :
    record_cmd "mic" ("/rec" ++ "/" ++ recordingFilename "20260101_120000") =
      ["parecord", "-d", "mic", "--file-format=wav",
        "/rec" ++ "/" ++ ("recording_" ++ "20260101_120000" ++ ".wav")] ∧
    "mic" ∈ record_cmd "mic" ("/rec" ++ "/" ++ recordingFilename "20260101_120000") ∧
    (record_cmd "mic" ("/rec" ++ "/" ++ recordingFilename "20260101_120000")).getLast? =
      some ("/rec" ++ "/" ++ recordingFilename "20260101_120000") ∧
    ∀ a ∈ record_cmd "mic" ("/rec" ++ "/" ++ recordingFilename "20260101_120000"),
      occursIn "44100".toList a.toList = false ∧
      occursIn "s16".toList a.toList = false ∧
      occursIn "channels".toList a.toList = false :=
  record_cmd_spec "mic" "/rec" "20260101_120000" (by decide) (by decide) (by decide)
    (by decide) (by decide) (by decide)

/-- The f-string fragment for seconds equals the seconds phrase. -/
theorem secondsPhrase_eq (n : Nat) :
    toString n ++ " Sekunde" ++ (if n ≠ 1 then "n" else "") = secondsPhrase n := by
  unfold secondsPhrase
  by_cases h1 : n = 1
  · simp [h1]
  · rw [if_pos h1, if_neg h1, String.append_assoc]
    rfl

/-- The f-string fragment for minutes equals the minutes phrase. -/
theorem minutesPhrase_eq (n : Nat) :
    toString n ++ " Minute" ++ (if n ≠ 1 then "n" else "") = minutesPhrase n := by
  unfold minutesPhrase
  by_cases h1 : n = 1
  · simp [h1]
  · rw [if_pos h1, if_neg h1, String.append_assoc]
    rfl

/-- C8: for every nonnegative duration, a value below 60 seconds renders
as a seconds-only phrase showing its whole-second count, and a value of 60
seconds or more renders as a minutes-and-seconds phrase whose counts are
the true minute/second decomposition of the duration; in both phrases the
singular form appears exactly when the rendered count equals 1. -/
theorem format_duration_spec (s : ℚ) (hs : 0 ≤ s) :
    (s < 60 → format_duration s = secondsPhrase (⌊s⌋).toNat) ∧
    (60 ≤ s → ∃ m n : Nat, 1 ≤ m ∧ n < 60 ∧
      (m : ℚ) * 60 + n ≤ s ∧ s < m * 60 + n + 1 ∧
      format_duration s = minutesPhrase m ++ " " ++ secondsPhrase n) := by
  have h60 : (0 : ℚ) < 60 := by norm_num
  constructor
  · intro hlt
    have hq : ⌊s / 60⌋ = 0 := by
      rw [Int.floor_eq_zero_iff]
      exact ⟨div_nonneg hs h60.le, by rw [div_lt_one h60]; exact hlt⟩
    unfold format_duration
    rw [hq]
    rw [if_neg (by decide : ¬ 0 < (0 : ℤ).toNat)]
    simp only [Int.cast_zero, mul_zero, sub_zero]
    exact secondsPhrase_eq _
  · intro hge
    have hM1 : 1 ≤ ⌊s / 60⌋ := by
      rw [Int.le_floor]
      rw [le_div_iff₀ h60]
      push_cast
      linarith
    have hMle : (⌊s / 60⌋ : ℚ) ≤ s / 60 := Int.floor_le _
    have hMlt : s / 60 < ⌊s / 60⌋ + 1 := Int.lt_floor_add_one _
    have h60M : 60 * (⌊s / 60⌋ : ℚ) ≤ s := by
      rw [le_div_iff₀ h60] at hMle
      linarith
    have hslt : s < 60 * ((⌊s / 60⌋ : ℚ) + 1) := by
      rw [div_lt_iff₀ h60] at hMlt
      linarith
    have hNle : (⌊s - 60 * (⌊s / 60⌋ : ℚ)⌋ : ℚ) ≤ s - 60 * (⌊s / 60⌋ : ℚ) :=
      Int.floor_le _
    have hNlt : s - 60 * (⌊s / 60⌋ : ℚ) < ⌊s - 60 * (⌊s / 60⌋ : ℚ)⌋ + 1 :=
      Int.lt_floor_add_one _
    have hNnn : 0 ≤ ⌊s - 60 * (⌊s / 60⌋ : ℚ)⌋ :=
      Int.floor_nonneg.mpr (by linarith)
    have hN60 : ⌊s - 60 * (⌊s / 60⌋ : ℚ)⌋ < 60 := by
      rw [Int.floor_lt]
      push_cast
      linarith
    refine ⟨(⌊s / 60⌋).toNat, (⌊s - 60 * (⌊s / 60⌋ : ℚ)⌋).toNat, by omega, by omega,
      ?_, ?_, ?_⟩
    · have hc1 : ((⌊s / 60⌋).toNat : ℚ) = (⌊s / 60⌋ : ℚ) := by
        exact_mod_cast Int.toNat_of_nonneg (by omega : (0 : ℤ) ≤ ⌊s / 60⌋)
      have hc2 : ((⌊s - 60 * (⌊s / 60⌋ : ℚ)⌋).toNat : ℚ) =
          (⌊s - 60 * (⌊s / 60⌋ : ℚ)⌋ : ℚ) := by
        exact_mod_cast Int.toNat_of_nonneg hNnn
      rw [hc1, hc2]
      linarith
    · have hc1 : ((⌊s / 60⌋).toNat : ℚ) = (⌊s / 60⌋ : ℚ) := by
        exact_mod_cast Int.toNat_of_nonneg (by omega : (0 : ℤ) ≤ ⌊s / 60⌋)
      have hc2 : ((⌊s - 60 * (⌊s / 60⌋ : ℚ)⌋).toNat : ℚ) =
          (⌊s - 60 * (⌊s / 60⌋ : ℚ)⌋ : ℚ) := by
        exact_mod_cast Int.toNat_of_nonneg hNnn
      rw [hc1, hc2]
      linarith
    · unfold format_duration
      rw [if_pos (by omega : 0 < (⌊s / 60⌋).toNat)]
      rw [← minutesPhrase_eq, ← secondsPhrase_eq]
      simp [String.append_assoc]

/-- C8 witness: the duration theorem applied to 125 seconds. -/
theorem format_duration_spec_witness :
    ∃ m n : Nat, 1 ≤ m ∧ n < 60 ∧
      (m : ℚ) * 60 + n ≤ 125 ∧ (125 : ℚ) < m * 60 + n + 1 ∧
      format_duration 125 = minutesPhrase m ++ " " ++ secondsPhrase n :=
  (format_duration_spec 125 (by norm_num)).2 (by norm_num)

/-- C9: for every byte count the formatter shows, with one decimal place,
the count divided by `1024^k` followed by the `k`-th unit of
B, KB, MB, GB, TB, where `k` counts the divisions performed: every earlier
unit was at or above 1024 (so counts below 1024 render in bytes with
`k = 0`), and unless the TB fallback is reached the shown value is below
1024. -/
theorem format_size_spec (n : Nat) : ∃ k : Nat, k ≤ 4 ∧
    format_size n = fixed1 ((n : ℚ) / 1024 ^ k) ++ " " ++ allUnits.getD k "" ∧
    (∀ j, j < k → 1024 ^ (j + 1) ≤ n) ∧ (k < 4 → n < 1024 ^ (k + 1)) := by
  have key : ∀ j : Nat, ((n : ℚ) / 1024 ^ j < 1024 ↔ n < 1024 ^ (j + 1)) := by
    intro j
    rw [div_lt_iff₀ (by positivity), ← pow_succ']
    exact_mod_cast Iff.rfl
  have e1 : (n : ℚ) / 1024 = (n : ℚ) / 1024 ^ 1 := by norm_num
  have e2 : (n : ℚ) / 1024 / 1024 = (n : ℚ) / 1024 ^ 2 := by
    rw [div_div]; norm_num
  have e3 : (n : ℚ) / 1024 / 1024 / 1024 = (n : ℚ) / 1024 ^ 3 := by
    rw [div_div, div_div]; norm_num
  have e4 : (n : ℚ) / 1024 / 1024 / 1024 / 1024 = (n : ℚ) / 1024 ^ 4 := by
    rw [div_div, div_div, div_div]; norm_num
  have e0 : (n : ℚ) = (n : ℚ) / 1024 ^ 0 := by norm_num
  have step : ∀ (u : String) (us : List String) (q : ℚ),
      formatSizeLoop (u :: us) q =
        if q < 1024 then fixed1 q ++ " " ++ u else formatSizeLoop us (q / 1024) :=
    fun _ _ _ => rfl
  unfold format_size
  by_cases h0 : n < 1024 ^ 1
  · have hc0 : (n : ℚ) < 1024 := by exact_mod_cast by simpa using h0
    refine ⟨0, by norm_num, ?_, fun j hj => absurd hj (Nat.not_lt_zero j),
      fun _ => by simpa using h0⟩
    rw [step, if_pos hc0, ← e0]
    rfl
  · have hc0 : ¬ (n : ℚ) < 1024 := by
      rw [show ((n : ℚ) < 1024) = ((n : ℚ) / 1024 ^ 0 < 1024) by rw [← e0], key 0]
      simpa using h0
    by_cases h1 : n < 1024 ^ 2
    · have hc1 : (n : ℚ) / 1024 < 1024 := by rw [e1, key 1]; exact h1
      refine ⟨1, by norm_num, ?_, ?_, fun _ => h1⟩
      · rw [step, if_neg hc0, step, if_pos hc1, e1]
        rfl
      · intro j hj
        have hj0 : j = 0 := by omega
        simpa [hj0] using h0
    · have hc1 : ¬ (n : ℚ) / 1024 < 1024 := by rw [e1, key 1]; exact h1
      by_cases h2 : n < 1024 ^ 3
      · have hc2 : (n : ℚ) / 1024 / 1024 < 1024 := by rw [e2, key 2]; exact h2
        refine ⟨2, by norm_num, ?_, ?_, fun _ => h2⟩
        · rw [step, if_neg hc0, step, if_neg hc1, step, if_pos hc2, e2]
          rfl
        · intro j hj
          interval_cases j
          · simpa using h0
          · simpa using h1
      · have hc2 : ¬ (n : ℚ) / 1024 / 1024 < 1024 := by rw [e2, key 2]; exact h2
        by_cases h3 : n < 1024 ^ 4
        · have hc3 : (n : ℚ) / 1024 / 1024 / 1024 < 1024 := by rw [e3, key 3]; exact h3
          refine ⟨3, by norm_num, ?_, ?_, fun _ => h3⟩
          · rw [step, if_neg hc0, step, if_neg hc1, step, if_neg hc2, step, if_pos hc3, e3]
            rfl
          · intro j hj
            interval_cases j
            · simpa using h0
            · simpa using h1
            · simpa using h2
        · have hc3 : ¬ (n : ℚ) / 1024 / 1024 / 1024 < 1024 := by
            rw [e3, key 3]; exact h3
          refine ⟨4, le_refl 4, ?_, ?_, fun h4 => absurd h4 (by omega)⟩
          · rw [step, if_neg hc0, step, if_neg hc1, step, if_neg hc2, step, if_neg hc3, e4,
              String.append_assoc]
            rfl
          · intro j hj
            interval_cases j
            · simpa using h0
            · simpa using h1
            · simpa using h2
            · simpa using h3

/-- C9 witness: the size theorem applied to a concrete byte count. -/
theorem format_size_spec_witness : ∃ k : Nat, k ≤ 4 ∧
    format_size 5000 = fixed1 ((5000 : ℚ) / 1024 ^ k) ++ " " ++ allUnits.getD k "" ∧
    (∀ j, j < k → 1024 ^ (j + 1) ≤ 5000) ∧ (k < 4 → 5000 < 1024 ^ (k + 1)) :=
  format_size_spec 5000

/-- C10: the format check depends only on the ASCII-lowercased path name —
two names equal up to letter case validate identically — and the
case-variant extensions `.WAV` and `.Mp3` pass it. -/
theorem format_check_case_insensitive :
    (∀ p q : List Char, p.map asciiLower = q.map asciiLower →
      checkFormatName p = checkFormatName q) ∧
    checkFormatName ("x.WAV".toList) = true ∧
    checkFormatName ("x.Mp3".toList) = true := by
  refine ⟨?_, by decide, by decide⟩
  intro p q h
  unfold checkFormatName
  have hp : (pySuffix p).map asciiLower = (pySuffix q).map asciiLower := by
    rw [← pySuffix_map_asciiLower, ← pySuffix_map_asciiLower, h]
  rw [hp]

/-- C10 witness: the case-insensitivity theorem applied to the concrete
case variants `a.WAV` and `a.wav`. -/
theorem format_check_case_insensitive_witness :
    checkFormatName ("a.WAV".toList) = checkFormatName ("a.wav".toList) :=
  format_check_case_insensitive.1 ("a.WAV".toList) ("a.wav".toList) (by decide)
